import Mathlib

/-!
Shallow embedding of `src/model/model-to-valibot.ts` (namespace `ModelToValibot`
of `@sinclair/typebox-codegen`): a visitor that compiles a TypeBox schema IR to
valibot validator source text.  JS strings are Lean `String`, JS numbers that
the emitter prints are `Int`, thrown JS errors are the `.error` side of
`Except String`, and the module-level mutable sets (`reference_map`,
`recursive_set`, `emitted_set`) are an explicit state record threaded through
the visitor.  `console.warn` output is modelled as a write-only list returned
alongside the result.  External collaborators that are out of scope of the
compiled model (`Formatter.Format`, `PropertyEncoder.Encode`,
`ModelToTypeScript.GenerateType`) are taken as function parameters.
-/

/-- Runtime tag of a JavaScript value, as far as the `typeof` operator can see
it.  Used to model the result of probing a Transform node's `Decode` function
with the fixed input `1` (source line 259). -/
inductive JSValue : Type where
  | str
  | num
  | boolean
  | object
  | array
  | nullv
  | undef
  | func
  | symbol
  | bigintv
deriving DecidableEq

/-- The JavaScript `typeof` operator on the modelled runtime tags.  Note that
`typeof` of an array and of `null` is the string "object": JavaScript has no
"array" result for `typeof`. -/
def jsTypeof : JSValue → String
  | .str => "string"
  | .num => "number"
  | .boolean => "boolean"
  | .object => "object"
  | .array => "object"
  | .nullv => "object"
  | .undef => "undefined"
  | .func => "function"
  | .symbol => "symbol"
  | .bigintv => "bigint"

/-- The `[Types.TransformKind]` payload of a Transform schema node: the outcome
of calling `Decode(1)` (either the runtime tag of the returned value or the
thrown error message), plus the source text of the two functions as returned by
`Function.prototype.toString`. -/
structure TransformData : Type where
  probe : Except String JSValue
  decodeText : String
  encodeText : String

/-- A JavaScript literal carried by a `Literal` schema node (`schema.const`). -/
inductive JSLit : Type where
  | str (s : String)
  | num (n : Int)
  | boolean (b : Bool)
deriving DecidableEq

mutual
/-- A TypeBox schema node: an optional stable name (`$id`), an optional
Transform payload (the `[Types.TransformKind]` property; the node with that
property removed is `Schema.mk id none body`), and the kind-specific data the
emitter reads. -/
inductive Schema : Type where
  | mk (id : Option String) (tr : Option TransformData) (body : SchemaF)

/-- Kind-specific data of a schema node, one constructor per `TypeGuard`
dispatch case of `Visit` (source lines 299-326); `fOther` is a node matching
none of the guards (line 326). -/
inductive SchemaF : Type where
  | fAny
  | fBigInt
  | fBoolean
  | fDate
  | fConstructor
  | fFunc
  | fNever
  | fNull
  | fPromise
  | fThis
  | fUint8Array
  | fUndefined
  | fUnknown
  | fVoid
  | fOther
  | fArray (items : Schema) (minItems maxItems : Option Int)
  | fInteger (minimum maximum exclusiveMinimum exclusiveMaximum : Option Int)
  | fNumber (minimum maximum exclusiveMinimum exclusiveMaximum : Option Int)
  | fIntersect (allOf : List Schema)
  | fLiteral (const : JSLit)
  | fString (format pattern : Option String) (minLength maxLength : Option Int)
  | fObject (properties : List (String × Bool × Schema))
  | fRecord (patternProperties : List (String × Schema))
  | fRef (ref : String)
  | fTemplateLiteral (pattern : String)
  | fTuple (items : Option (List Schema))
  | fUnion (anyOf : List Schema)
end

/-- The `$id` field of a node. -/
def Schema.idOf : Schema → Option String
  | .mk id _ _ => id

/-- The module-level run-scoped state of `ModelToValibot`: `reference_map`
(a name-to-node JS `Map`, insertion ordered), `recursive_set` and
`emitted_set` (JS `Set`s of names, insertion ordered). -/
structure St : Type where
  referenceMap : List (String × Schema)
  recursiveSet : List String
  emittedSet : List String

/-- The `settings` record (`ModelToValibotSettings`) plus the external
`PropertyEncoder.Encode` collaborator used by the Object rule. -/
structure Cfg : Type where
  exactOptionalPropertyTypes : Bool
  propertyEncode : String → String

/-- One `console.warn` diagnostic from the Transform probe: the `Decode`
function's text and the underlying error (source lines 261-267). -/
abbrev Warn : Type := String × String

/-- JS `Set.prototype.has` on the modelled string set. -/
def setMem (n : String) : List String → Bool
  | [] => false
  | x :: r => if x = n then true else setMem n r

/-- JS `Set.prototype.add`: appends the element unless already present. -/
def setAdd (l : List String) (n : String) : List String :=
  if setMem n l then l else l ++ [n]

/-- JS `Map.prototype.has` on the modelled reference map. -/
def mapHas (k : String) : List (String × Schema) → Bool
  | [] => false
  | p :: r => if p.1 = k then true else mapHas k r

/-- JS `Map.prototype.set`: updates the value in place if the key is present,
otherwise appends the pair. -/
def mapSet (m : List (String × Schema)) (k : String) (v : Schema) : List (String × Schema) :=
  match m with
  | [] => [(k, v)]
  | p :: r => if p.1 = k then (k, v) :: r else p :: mapSet r k v

/-- JS `Array.prototype.join(sep)` on a list of strings. -/
def jsJoin (sep : String) : List String → String
  | [] => ""
  | [x] => x
  | x :: r => x ++ sep ++ jsJoin sep r

/-- The function `Type` of the source (lines 46-60), the constraint-composition
grammar: a base call, an optional parameter, and refinements composed through
`v.pipe`.  Named `TypeCall` because `Type` is reserved in Lean. -/
def TypeCall (type : String) (parameter : Option String) (constraints : List String) : String :=
  if constraints.length > 0 then
    match parameter with
    | some p => "v.pipe(" ++ type ++ "(" ++ p ++ "), " ++ jsJoin ", " constraints ++ ")"
    | none => "v.pipe(" ++ type ++ "(), " ++ jsJoin ", " constraints ++ ")"
  else
    match parameter with
    | some p => type ++ "(" ++ p ++ ")"
    | none => type ++ "()"

/-- `UnsupportedType` (source lines 293-295): the degraded accept-anything
sentinel. -/
def UnsupportedType : String :=
  "v.any(/* unsupported */)"

/-- `pattern.replace(/\//g, a backslash-escaped slash)` from
`getPatternConstraints` (source line 154). -/
def escapeSlashes (s : String) : String :=
  String.mk ((s.data.map (fun c => if c = '/' then ['\\', '/'] else [c])).flatten)

/-- `getFormatValidator` (source lines 160-176): fixed lookup from a declared
string format to a named refinement; unrecognized (or falsy) formats map to
`null`. -/
def getFormatValidator (format : Option String) : Option String :=
  match format with
  | none => none
  | some f =>
    if f = "" then none
    else if f = "date-time" then some "v.isoTimestamp()"
    else if f = "email" then some "v.email()"
    else if f = "uri" then some "v.url()"
    else if f = "url" then some "v.url()"
    else if f = "uuid" then some "v.uuid()"
    else if f = "date" then some "v.isoDate()"
    else if f = "time" then some "v.isoTime()"
    else if f = "ipv4" then some "v.ipv4()"
    else if f = "ipv6" then some "v.ipv6()"
    else none

/-- `getLengthConstraints` (source lines 144-149): the maximum-length
refinement is pushed before the minimum-length refinement. -/
def getLengthConstraints (minLength maxLength : Option Int) : List String :=
  let c1 := match maxLength with
    | some m => ["v.maxLength(" ++ toString m ++ ")"]
    | none => []
  let c2 := match minLength with
    | some m => ["v.minLength(" ++ toString m ++ ")"]
    | none => []
  c1 ++ c2

/-- `getPatternConstraints` (source lines 151-158); the JS truthiness test
`if (pattern)` makes an empty pattern contribute nothing. -/
def getPatternConstraints (pattern : Option String) : List String :=
  match pattern with
  | none => []
  | some p => if p = "" then [] else ["v.regex(/" ++ escapeSlashes p ++ "/)"]

/-- `createStringValidatorWithFormat` (source lines 131-142): the format
refinement, when present, is placed first, directly after the base call. -/
def createStringValidatorWithFormat (formatValidator : Option String) (constraintsStr : String) : String :=
  match formatValidator with
  | some f =>
    if constraintsStr = "" then "v.pipe(v.string(), " ++ f ++ ")"
    else "v.pipe(v.string(), " ++ f ++ ", " ++ constraintsStr ++ ")"
  | none =>
    if constraintsStr = "" then "v.string()"
    else "v.pipe(v.string(), " ++ constraintsStr ++ ")"

/-- `processStringSchema` (source lines 110-129): length constraints, then
pattern constraints, composed with the format validator. -/
def processStringSchema (format pattern : Option String) (minLength maxLength : Option Int) : String :=
  let constraints := getLengthConstraints minLength maxLength ++ getPatternConstraints pattern
  let formatValidator := getFormatValidator format
  let constraintsStr := if constraints.length > 0 then jsJoin ", " constraints else ""
  createStringValidatorWithFormat formatValidator constraintsStr

/-- `TypeToSchema` (source lines 329-344): builds a TypeBox schema from a
`typeof` result string.  The "array" case is kept faithful to the source even
though `typeof` never returns "array". -/
def typeToSchema (type : String) : Schema :=
  if type = "string" then .mk none none (.fString none none none none)
  else if type = "number" then .mk none none (.fNumber none none none none)
  else if type = "boolean" then .mk none none .fBoolean
  else if type = "array" then .mk none none (.fArray (.mk none none .fAny) none none)
  else if type = "object" then .mk none none (.fObject [])
  else .mk none none .fAny

/-- Whitespace characters for the purposes of the JS regex class and
`String.prototype.trim` on the texts this emitter produces. -/
def isWs (c : Char) : Bool :=
  c = ' ' || c = '\t' || c = '\n' || c = '\r'

/-- JS `String.prototype.trim` on a character list. -/
def trimChars (l : List Char) : List Char :=
  ((l.dropWhile isWs).reverse.dropWhile isWs).reverse

/-- JS `String.prototype.split` with separator comma, on a character list
(source line 281). -/
def splitComma : List Char → List (List Char)
  | [] => [[]]
  | c :: r =>
    if c = ',' then [] :: splitComma r
    else
      match splitComma r with
      | [] => [[c]]
      | g :: gs => (c :: g) :: gs

/-- The portion of a character list up to (excluding) the first newline: the
JS regex dot does not match newlines. -/
def takeLine (l : List Char) : List Char :=
  l.takeWhile (fun c => !(c = '\n'))

/-- Greedy capture of the regex fragment dot-star followed by a literal closing
parenthesis: everything up to the last closing parenthesis of the list, or
`none` if there is no closing parenthesis. -/
def capLastParen (l : List Char) : Option (List Char) :=
  match l.reverse.dropWhile (fun c => !(c = ')')) with
  | [] => none
  | _ :: rest => some rest.reverse

/-- One anchored attempt of the JS regex match for a v.pipe composition
(source line 279): the literal "v.pipe", then whitespace, then an opening
parenthesis, then a greedy same-line capture ending at a closing
parenthesis. -/
def tryPipeAt (l : List Char) : Option (List Char) :=
  match l with
  | 'v' :: '.' :: 'p' :: 'i' :: 'p' :: 'e' :: rest =>
    match rest.dropWhile isWs with
    | '(' :: rest2 => capLastParen (takeLine rest2)
    | _ => none
  | _ => none

/-- Leftmost-match search of the JS regex of source line 279 over the
target expression text. -/
def pipeSearch : List Char → Option (List Char)
  | [] => none
  | c :: r =>
    match tryPipeAt (c :: r) with
    | some cap => some cap
    | none => pipeSearch r

/-- Source lines 278-284: if the visited target expression matches the v.pipe
regex, its captured stage list is split on commas and each piece trimmed;
otherwise the trimmed whole expression is the single constraint. -/
def pipeConstraints (toStr : String) : List String :=
  match pipeSearch toStr.data with
  | some cap => (splitComma cap).map (fun g => String.mk (trimChars g))
  | none => [String.mk (trimChars toStr.data)]

/-- The template literal of source lines 287-291 assembling the Transform
pipeline, with its exact whitespace. -/
def transformTemplate (fromStr transformCallback : String) (constraints : List String) : String :=
  "v.pipe(\n      " ++ fromStr ++ ",\n      v.transform(" ++ transformCallback
    ++ "),\n      " ++ jsJoin ", " constraints ++ "\n    )"

mutual
/-- Number of Transform payloads in a node (termination measure for `Visit`). -/
def countTS : Schema → Nat
  | .mk _ tr b => (match tr with | some _ => 1 | none => 0) + countTF b

/-- Number of Transform payloads below a node body. -/
def countTF : SchemaF → Nat
  | .fArray it _ _ => countTS it
  | .fIntersect l => countTL l
  | .fObject l => countTP l
  | .fRecord l => countTR l
  | .fTuple (some l) => countTL l
  | .fUnion l => countTL l
  | _ => 0

/-- Transform payloads in a child list. -/
def countTL : List Schema → Nat
  | [] => 0
  | s :: r => countTS s + countTL r

/-- Transform payloads in a property list. -/
def countTP : List (String × Bool × Schema) → Nat
  | [] => 0
  | (_, _, s) :: r => countTS s + countTP r

/-- Transform payloads in a pattern-properties list. -/
def countTR : List (String × Schema) → Nat
  | [] => 0
  | (_, s) :: r => countTS s + countTR r
end

mutual
/-- Structural size of a node ignoring strings (termination measure). -/
def msizeS : Schema → Nat
  | .mk _ tr b => 1 + (match tr with | some _ => 1 | none => 0) + msizeF b

/-- Structural size of a node body. -/
def msizeF : SchemaF → Nat
  | .fArray it _ _ => 1 + msizeS it
  | .fIntersect l => 1 + msizeL l
  | .fObject l => 1 + msizeP l
  | .fRecord l => 1 + msizeR l
  | .fTuple (some l) => 1 + msizeL l
  | .fUnion l => 1 + msizeL l
  | _ => 1

/-- Structural size of a child list. -/
def msizeL : List Schema → Nat
  | [] => 0
  | s :: r => 1 + msizeS s + msizeL r

/-- Structural size of a property list. -/
def msizeP : List (String × Bool × Schema) → Nat
  | [] => 0
  | (_, _, s) :: r => 1 + msizeS s + msizeP r

/-- Structural size of a pattern-properties list. -/
def msizeR : List (String × Schema) → Nat
  | [] => 0
  | (_, s) :: r => 1 + msizeS s + msizeR r
end

mutual
/-- `Visit` (source lines 296-327).  Line 297: a named node is recorded in the
reference map before anything else; line 298: a name already in the emitted
set short-circuits to the bare name; line 299: the Transform guard runs before
all other kind guards; then the kind dispatch.  The result carries the emitted
text, the updated state and the `console.warn` entries emitted during the
visit; a thrown JS error is the `.error` case. -/
def Visit (cfg : Cfg) (s : Schema) (st0 : St) : Except String (String × St × List Warn) :=
  match s with
  | .mk id tr body =>
    match id with
    | some n =>
      let st : St := { st0 with referenceMap := mapSet st0.referenceMap n (.mk (some n) tr body) }
      if setMem n st.emittedSet then .ok (n, st, [])
      else VisitBody cfg (some n) tr body st
    | none => VisitBody cfg none tr body st0
termination_by 10 * countTS s + msizeS s
decreasing_by
  all_goals try simp only [countTS, countTF, countTL, countTP, countTR,
    msizeS, msizeF, msizeL, msizeP, msizeR]
  all_goals omega

/-- The dispatch of `Visit` after the reference-map update and the emitted-set
check: the Transform rule (source lines 253-292) when the Transform payload is
present, otherwise one branch per kind rule (source lines 61-251 and the
line 326 fallthrough). -/
def VisitBody (cfg : Cfg) (id : Option String) (tr : Option TransformData) (body : SchemaF)
    (st : St) : Except String (String × St × List Warn) :=
  match tr with
  | some td =>
    -- Transform (source lines 253-292)
    let probed : Except String (String × St × List Warn) :=
      match td.probe with
      | .ok v => Visit cfg (typeToSchema (jsTypeof v)) st
      | .error e => .error e
    let fs : String × St × List Warn :=
      match probed with
      | .ok (t, st1, w1) => (t, st1, w1)
      | .error e =>
        ("v.any(/* failed to convert from Decode function */)", st, [(td.decodeText, e)])
    match Visit cfg (.mk id none body) fs.2.1 with
    | .ok (toStr, st2, w2) =>
      .ok (transformTemplate fs.1 td.encodeText (pipeConstraints toStr), st2, fs.2.2 ++ w2)
    | .error e => .error e
  | none =>
    match body with
    | .fAny => .ok (TypeCall "v.any" none [], st, [])
    | .fBigInt => .ok (TypeCall "v.bigint" none [], st, [])
    | .fBoolean => .ok (TypeCall "v.boolean" none [], st, [])
    | .fDate => .ok (TypeCall "v.date" none [], st, [])
    | .fConstructor => .ok (UnsupportedType, st, [])
    | .fFunc => .ok (UnsupportedType, st, [])
    | .fNever => .ok (TypeCall "v.never" none [], st, [])
    | .fNull => .ok (TypeCall "v.null" none [], st, [])
    | .fPromise => .ok (UnsupportedType, st, [])
    | .fThis => .ok (UnsupportedType, st, [])
    | .fUint8Array => .ok (UnsupportedType, st, [])
    | .fUndefined => .ok (TypeCall "v.undefined" none [], st, [])
    | .fUnknown => .ok (TypeCall "v.unknown" none [], st, [])
    | .fVoid => .ok (TypeCall "v.void" none [], st, [])
    | .fOther => .ok (UnsupportedType, st, [])
    | .fArray items minItems maxItems =>
      -- Array (source lines 64-70)
      match Visit cfg items st with
      | .ok (t, st1, w1) =>
        let c1 := match minItems with
          | some m => ["v.minLength(" ++ toString m ++ ")"]
          | none => []
        let c2 := match maxItems with
          | some m => ["v.maxLength(" ++ toString m ++ ")"]
          | none => []
        .ok (TypeCall "v.array" (some t) (c1 ++ c2), st1, w1)
      | .error e => .error e
    | .fInteger minimum maximum exclusiveMinimum exclusiveMaximum =>
      -- Integer (source lines 86-93)
      let c0 := ["v.integer()"]
      let c1 := match minimum with
        | some m => ["v.minValue(" ++ toString m ++ ")"]
        | none => []
      let c2 := match maximum with
        | some m => ["v.maxValue(" ++ toString m ++ ")"]
        | none => []
      let c3 := match exclusiveMinimum with
        | some m => ["v.minValue(" ++ toString (m + 1) ++ ")"]
        | none => []
      let c4 := match exclusiveMaximum with
        | some m => ["v.maxValue(" ++ toString (m - 1) ++ ")"]
        | none => []
      .ok (TypeCall "v.number" none (c0 ++ c1 ++ c2 ++ c3 ++ c4), st, [])
    | .fNumber minimum maximum exclusiveMinimum exclusiveMaximum =>
      -- Number (source lines 186-193)
      let c1 := match minimum with
        | some m => ["v.minValue(" ++ toString m ++ ")"]
        | none => []
      let c2 := match maximum with
        | some m => ["v.maxValue(" ++ toString m ++ ")"]
        | none => []
      let c3 := match exclusiveMinimum with
        | some m => ["v.minValue(" ++ toString (m + 1) ++ ")"]
        | none => []
      let c4 := match exclusiveMaximum with
        | some m => ["v.maxValue(" ++ toString (m - 1) ++ ")"]
        | none => []
      .ok (TypeCall "v.number" none (c1 ++ c2 ++ c3 ++ c4), st, [])
    | .fIntersect allOf =>
      -- Intersect (source lines 94-97)
      match visitList cfg allOf st with
      | .ok (ts, st1, w1) =>
        .ok (TypeCall "v.intersect" (some ("[" ++ jsJoin ", " ts ++ "]")) [], st1, w1)
      | .error e => .error e
    | .fLiteral c =>
      -- Literal (source lines 98-102)
      match c with
      | .str s => .ok (TypeCall "v.literal" (some ("\x27" ++ s ++ "\x27")) [], st, [])
      | .num n => .ok (TypeCall "v.literal" (some (toString n)) [], st, [])
      | .boolean b => .ok (TypeCall "v.literal" (some (if b then "true" else "false")) [], st, [])
    | .fString format pattern minLength maxLength =>
      -- String (source lines 178-185)
      .ok (processStringSchema format pattern minLength maxLength, st, [])
    | .fObject properties =>
      -- Object (source lines 194-206)
      match visitProps cfg properties st with
      | .ok (entries, st1, w1) =>
        .ok (TypeCall "v.object" (some ("\x7b\n" ++ jsJoin "," entries ++ "\n\x7d")) [], st1, w1)
      | .error e => .error e
    | .fRecord patternProperties =>
      -- Record (source lines 210-220): the loop body returns in its first
      -- iteration; an empty pattern-properties collection falls through to
      -- the throw on line 219.
      match patternProperties with
      | [] => .error "Unreachable"
      | (key, value) :: _ =>
        match Visit cfg value st with
        | .ok (t, st1, w1) =>
          if key = "^(0|[1-9][0-9]*)$" then
            .ok (TypeCall "v.record" (some ("v.number(), " ++ t)) [], st1, w1)
          else
            .ok (TypeCall "v.record"
              (some (processStringSchema none (some key) none none ++ ", " ++ t)) [], st1, w1)
        | .error e => .error e
    | .fRef ref =>
      -- Ref (source lines 221-224)
      if mapHas ref st.referenceMap then .ok (ref, st, [])
      else .ok (UnsupportedType, st, [])
    | .fTemplateLiteral pattern =>
      -- TemplateLiteral (source lines 233-236)
      .ok (TypeCall "v.string" none [TypeCall "v.regex" (some ("/" ++ pattern ++ "/")) []], st, [])
    | .fTuple items =>
      -- Tuple (source lines 228-232)
      match items with
      | none => .ok ("[]", st, [])
      | some l =>
        match visitList cfg l st with
        | .ok (ts, st1, w1) =>
          .ok (TypeCall "v.tuple" (some ("[" ++ jsJoin ", " ts ++ "]")) [], st1, w1)
        | .error e => .error e
    | .fUnion anyOf =>
      -- Union (source lines 243-246)
      match visitList cfg anyOf st with
      | .ok (ts, st1, w1) =>
        .ok (TypeCall "v.union" (some ("[" ++ jsJoin ", " ts ++ "]")) [], st1, w1)
      | .error e => .error e
termination_by 10 * ((match tr with | some _ => 1 | none => 0) + countTF body)
               + (match tr with | some _ => 1 | none => 0) + msizeF body
decreasing_by
  all_goals try simp only [countTS, countTF, countTL, countTP, countTR,
    msizeS, msizeF, msizeL, msizeP, msizeR]
  all_goals first
    | omega
    | (have h1 : countTS (typeToSchema (jsTypeof v)) = 0 := by
         unfold typeToSchema
         repeat' split
         all_goals rfl
       have h2 : msizeS (typeToSchema (jsTypeof v)) ≤ 4 := by
         unfold typeToSchema
         repeat' split
         all_goals decide
       omega)

/-- Left-to-right visit of a child list (the `.map((s) => Visit(s))` calls of
Union, Intersect and Tuple), threading the state and collecting warnings. -/
def visitList (cfg : Cfg) (l : List Schema) (st : St) :
    Except String (List String × St × List Warn) :=
  match l with
  | [] => .ok ([], st, [])
  | s :: r =>
    match Visit cfg s st with
    | .ok (t, st1, w1) =>
      match visitList cfg r st1 with
      | .ok (ts, st2, w2) => .ok (t :: ts, st2, w1 ++ w2)
      | .error e => .error e
    | .error e => .error e
termination_by 10 * countTL l + msizeL l
decreasing_by
  all_goals try simp only [countTS, countTF, countTL, countTP, countTR,
    msizeS, msizeF, msizeL, msizeP, msizeR]
  all_goals omega

/-- Left-to-right visit of an Object node's property list (source lines
195-203): each entry is the encoded property name, a colon, and the visited
value wrapped in the optional combinator selected by the settings when the
property is optional. -/
def visitProps (cfg : Cfg) (l : List (String × Bool × Schema)) (st : St) :
    Except String (List String × St × List Warn) :=
  match l with
  | [] => .ok ([], st, [])
  | (key, optional, value) :: r =>
    match Visit cfg value st with
    | .ok (t, st1, w1) =>
      let entry :=
        if optional then
          if cfg.exactOptionalPropertyTypes then
            cfg.propertyEncode key ++ ": v.exactOptional(" ++ t ++ ")"
          else
            cfg.propertyEncode key ++ ": v.optional(" ++ t ++ ")"
        else cfg.propertyEncode key ++ ": " ++ t
      match visitProps cfg r st1 with
      | .ok (es, st2, w2) => .ok (entry :: es, st2, w1 ++ w2)
      | .error e => .error e
    | .error e => .error e
termination_by 10 * countTP l + msizeP l
decreasing_by
  all_goals try simp only [countTS, countTF, countTL, countTP, countTR,
    msizeS, msizeF, msizeL, msizeP, msizeR]
  all_goals omega
end

/-- `Collect` (source lines 345-347): the JS string spread re-joined with the
empty separator is the identity on the visited text, so `Collect` is `Visit`. -/
def Collect (cfg : Cfg) (s : Schema) (st : St) : Except String (String × St × List Warn) :=
  Visit cfg s st

/-- JS template interpolation of a possibly-undefined string
(the interpolation of `schema.$id` when it is `undefined` prints
"undefined"). -/
def optStr : Option String → String
  | some s => s
  | none => "undefined"

/-- JS `schema.$id || "T"`: falsy names (undefined or the empty string)
fall back to "T" (source lines 357 and 360). -/
def idOrT : Option String → String
  | some s => if s = "" then "T" else s
  | none => "T"

/-- The reference loop of `GenerateType` (source lines 350-353): every
reference is recorded in the reference map; a reference without a name aborts
the loop, keeping the entries recorded so far and flagging failure. -/
def addRefs (refs : List Schema) (m : List (String × Schema)) : List (String × Schema) × Bool :=
  match refs with
  | [] => (m, true)
  | r :: rest =>
    match r.idOf with
    | none => (m, false)
    | some n => addRefs rest (mapSet m n r)

/-- `GenerateType` (source lines 348-364): rebuild the reference map from all
references, visit the node, choose the recursive or plain output shape, then
mark the name emitted.  `fmt` is the external `Formatter.Format` and `tsGen`
the external `ModelToTypeScript.GenerateType` applied to the model and a
name. -/
def GenerateType (fmt tsGen : String → String) (cfg : Cfg) (schema : Schema)
    (references : List Schema) (st : St) : Except String (String × St × List Warn) :=
  let ar := addRefs references st.referenceMap
  let st1 : St := { st with referenceMap := ar.1 }
  if ar.2 = false then .ok (UnsupportedType, st1, [])
  else
    match Collect cfg schema st1 with
    | .error e => .error e
    | .ok (type, st2, w) =>
      let isRec := match schema.idOf with
        | some n => setMem n st2.recursiveSet
        | none => false
      let out :=
        if isRec then
          "export " ++ tsGen (optStr schema.idOf) ++ "\n"
            ++ "export const " ++ idOrT schema.idOf ++ ": v.InferOutput<"
            ++ optStr schema.idOf ++ "> = v.lazy(() => " ++ fmt type ++ ")"
        else
          "export type " ++ optStr schema.idOf ++ " = v.InferOutput<typeof "
            ++ optStr schema.idOf ++ ">\n"
            ++ "export const " ++ idOrT schema.idOf ++ " = " ++ fmt type
      let st3 : St := match schema.idOf with
        | some n => if n = "" then st2 else { st2 with emittedSet := setAdd st2.emittedSet n }
        | none => st2
      .ok (out, st3, w)

/-- The loop of `Generate` over the model's types (source lines 379-381),
collecting each unit's output text. -/
def generateLoop (fmt tsGen : String → String) (cfg : Cfg) (model : List Schema) :
    List Schema → St → Except String (List String × St × List Warn)
  | [], st => .ok ([], st, [])
  | t :: rest, st =>
    match GenerateType fmt tsGen cfg t model st with
    | .ok (out, st1, w1) =>
      match generateLoop fmt tsGen cfg model rest st1 with
      | .ok (outs, st2, w2) => .ok (out :: outs, st2, w1 ++ w2)
      | .error e => .error e
    | .error e => .error e

/-- `Generate` (source lines 371-383): store the options in the settings,
unconditionally clear the three run-scoped collections, emit every model type
in order after the fixed import preamble, and hand the joined buffer to the
external formatter.  The model is the `types` sequence (every entry of the
embedded model is a schema, so the `IsSchema` filter of line 379 keeps all of
them); the incoming state `g` models the shared module-level state holder and
is discarded by the reset. -/
def Generate (fmt tsGen : String → String) (propertyEncode : String → String)
    (model : List Schema) (exactOptionalPropertyTypes : Bool) (g : St) :
    Except String (String × St × List Warn) :=
  let cfg : Cfg := { exactOptionalPropertyTypes := exactOptionalPropertyTypes,
                     propertyEncode := propertyEncode }
  let st0 : St := { referenceMap := [], recursiveSet := [], emittedSet := [] }
  match generateLoop fmt tsGen cfg model model st0 with
  | .ok (outs, st1, w) =>
    .ok (fmt (jsJoin "\n" (["import * as v from \x27valibot\x27", ""] ++ outs)), st1, w)
  | .error e => .error e

/-- Text projection of a visit result: the emitted text when the call
returned, `none` when it threw. -/
def resText (r : Except String (String × St × List Warn)) : Option String :=
  match r with
  | .ok (t, _, _) => some t
  | .error _ => none

/-- A name field is either absent or a nonempty string. -/
def idOk : Option String → Bool
  | some n => if n = "" then false else true
  | none => true

mutual
/-- Well-formedness of a node for the totality statement: every name in the
tree is nonempty and every Record node reachable by the visitor (the visitor
reads only the first pattern-properties entry) has a nonempty pattern
collection. -/
def wfS : Schema → Bool
  | .mk id _ body => idOk id && wfF body

/-- Well-formedness of a node body. -/
def wfF : SchemaF → Bool
  | .fArray it _ _ => wfS it
  | .fIntersect l => wfL l
  | .fObject l => wfP l
  | .fRecord [] => false
  | .fRecord ((_, v) :: _) => wfS v
  | .fTuple (some l) => wfL l
  | .fUnion l => wfL l
  | _ => true

/-- Well-formedness of a child list. -/
def wfL : List Schema → Bool
  | [] => true
  | s :: r => wfS s && wfL r

/-- Well-formedness of a property list. -/
def wfP : List (String × Bool × Schema) → Bool
  | [] => true
  | (_, _, s) :: r => wfS s && wfP r
end

/-- Every name in the list is nonempty. -/
def namesOk : List String → Bool
  | [] => true
  | x :: r => (if x = "" then false else true) && namesOk r

/-- Every key of the reference map is nonempty. -/
def keysOk : List (String × Schema) → Bool
  | [] => true
  | p :: r => (if p.1 = "" then false else true) && keysOk r

/-- Cleanliness of a state: reference-map keys and emitted names are nonempty
(true of the empty state and preserved by runs over well-formed models). -/
def cleanSt (st : St) : Bool :=
  keysOk st.referenceMap && namesOk st.emittedSet

/-- The name of the node is not yet in the emitted set (the line 298 memo
check fails), so `Visit` proceeds to the kind dispatch. -/
def memoMiss (id : Option String) (st : St) : Bool :=
  match id with
  | some n => !(setMem n st.emittedSet)
  | none => true

/-- The line 297 update: a named node is recorded in the reference map. -/
def refUpdate (st : St) (id : Option String) (s : Schema) : St :=
  match id with
  | some n => { st with referenceMap := mapSet st.referenceMap n s }
  | none => st

/-- Modelled from the spec (amended source-shape mapping for the Transform
probe): the inferred source shape is a function of the `typeof` tag of the
value returned by `Decode(1)` alone — "string", "number" and "boolean" map to
the corresponding base schema, "object" (which is also the `typeof` of arrays
and of `null`) maps to the empty-object schema, and every other tag maps to
the any schema. -/
def specSourceShape (v : JSValue) : String :=
  match jsTypeof v with
  | "string" => "v.string()"
  | "number" => "v.number()"
  | "boolean" => "v.boolean()"
  | "object" => "v.object(\x7b\n\n\x7d)"
  | _ => "v.any()"

/-- Whether the needle is an initial segment of the haystack. -/
def headMatches : List Char → List Char → Bool
  | [], _ => true
  | _ :: _, [] => false
  | a :: as, b :: bs => if a = b then headMatches as bs else false

/-- Index of the first occurrence of the needle in the haystack, if any. -/
def firstOccur (needle : List Char) : List Char → Option Nat
  | [] => if headMatches needle [] then some 0 else none
  | c :: rest =>
    if headMatches needle (c :: rest) then some 0
    else (firstOccur needle rest).map (fun i => i + 1)

/-- Index of the first occurrence of a substring in a string, if any. -/
def strOccur (needle hay : String) : Option Nat :=
  firstOccur needle.data hay.data

/-- A configuration with the default settings and the identity property
encoder, used for concrete instances. -/
def cfgId : Cfg :=
  { exactOptionalPropertyTypes := false, propertyEncode := fun s => s }

/-- The empty run state. -/
def stEmpty : St :=
  { referenceMap := [], recursiveSet := [], emittedSet := [] }

/-- Transform payload of the repository test "Transform String to Number":
`Decode(1)` returns the string "1", the encode function text is the arrow
function converting back to a number. -/
def tdStrNum : TransformData :=
  { probe := .ok .str, decodeText := "(value) => String(value)",
    encodeText := "(value) => Number(value)" }

/-- Transform payload whose decode function returns an array when probed. -/
def tdArr : TransformData :=
  { probe := .ok .array, decodeText := "(v) => [v]",
    encodeText := "(v) => Object.keys(v)" }

/-- Transform payload whose decode function returns a number when probed. -/
def tdNum : TransformData :=
  { probe := .ok .num, decodeText := "(v) => Number(v)",
    encodeText := "(v) => String(v)" }

/-- Transform payload whose decode function throws on the probe input. -/
def tdBoom : TransformData :=
  { probe := .error "boom", decodeText := "(x) => \x7b throw new Error(x) \x7d",
    encodeText := "(v) => String(v)" }

theorem str_data_append (a b : String) : (a ++ b).data = a.data ++ b.data := rfl

theorem str_eq_empty_of_data (a : String) (h : a.data = []) : a = "" := by
  cases a
  simp_all

theorem str_append_ne_empty_left (a b : String) (h : ¬(a = "")) : ¬(a ++ b = "") := by
  intro he
  apply h
  apply str_eq_empty_of_data
  have hd := congrArg String.data he
  rw [str_data_append] at hd
  rcases List.append_eq_nil.mp hd with ⟨h1, h2⟩
  exact h1

theorem str_mk_data (s : String) : String.mk s.data = s := by
  cases s
  rfl

theorem Visit_step (cfg : Cfg) (id : Option String) (tr : Option TransformData) (body : SchemaF)
    (st : St) (hm : memoMiss id st = true) :
    Visit cfg (.mk id tr body) st = VisitBody cfg id tr body (refUpdate st id (.mk id tr body)) := by
  cases id with
  | none => simp [Visit, refUpdate]
  | some n =>
    simp only [memoMiss, Bool.not_eq_true'] at hm
    simp [Visit, refUpdate, hm]

theorem Visit_typeToSchema (cfg : Cfg) (t : String) (st : St) :
    Visit cfg (typeToSchema t) st = .ok (
      if t = "string" then "v.string()"
      else if t = "number" then "v.number()"
      else if t = "boolean" then "v.boolean()"
      else if t = "array" then "v.array(v.any())"
      else if t = "object" then "v.object(\x7b\n\n\x7d)"
      else "v.any()", st, []) := by
  unfold typeToSchema
  repeat' split
  all_goals simp [Visit, VisitBody, TypeCall, visitProps, jsJoin, processStringSchema,
    getLengthConstraints, getPatternConstraints, getFormatValidator,
    createStringValidatorWithFormat]

theorem TypeCall_ne_empty (type : String) (p : Option String) (c : List String)
    (h : ¬(type = "")) : ¬(TypeCall type p c = "") := by
  unfold TypeCall
  split
  all_goals split
  all_goals (repeat' apply str_append_ne_empty_left)
  all_goals first
    | exact h
    | decide

theorem processStringSchema_ne_empty (format pattern : Option String)
    (minLength maxLength : Option Int) :
    ¬(processStringSchema format pattern minLength maxLength = "") := by
  unfold processStringSchema createStringValidatorWithFormat
  try simp only []
  split
  all_goals split
  all_goals try split
  all_goals (repeat' apply str_append_ne_empty_left)
  all_goals decide

theorem transformTemplate_ne_empty (a b : String) (c : List String) :
    ¬(transformTemplate a b c = "") := by
  unfold transformTemplate
  repeat' apply str_append_ne_empty_left
  decide

theorem setMem_namesOk (l : List String) (n : String) (hok : namesOk l = true)
    (hm : setMem n l = true) : ¬(n = "") := by
  induction l with
  | nil => simp [setMem] at hm
  | cons x r ih =>
    simp only [namesOk, Bool.and_eq_true] at hok
    simp only [setMem] at hm
    by_cases hx : x = n
    · intro hn
      rw [hn] at hx
      rw [hx] at hok
      simp at hok
    · rw [if_neg hx] at hm
      exact ih hok.2 hm

theorem mapHas_keysOk (m : List (String × Schema)) (k : String) (hok : keysOk m = true)
    (hm : mapHas k m = true) : ¬(k = "") := by
  induction m with
  | nil => simp [mapHas] at hm
  | cons p r ih =>
    simp only [keysOk, Bool.and_eq_true] at hok
    simp only [mapHas] at hm
    by_cases hx : p.1 = k
    · intro hn
      rw [hn] at hx
      rw [hx] at hok
      simp at hok
    · rw [if_neg hx] at hm
      exact ih hok.2 hm

theorem keysOk_mapSet (m : List (String × Schema)) (k : String) (v : Schema)
    (hok : keysOk m = true) (hk : ¬(k = "")) : keysOk (mapSet m k v) = true := by
  induction m with
  | nil => simp [mapSet, keysOk, hk]
  | cons p r ih =>
    simp only [keysOk, Bool.and_eq_true] at hok
    simp only [mapSet]
    by_cases hx : p.1 = k
    · simp [hx, keysOk, hk, hok.2]
    · simp [hx, keysOk, hok.1, ih hok.2]

theorem cleanSt_keys (st : St) (h : cleanSt st = true) : keysOk st.referenceMap = true := by
  simp only [cleanSt, Bool.and_eq_true] at h
  exact h.1

theorem cleanSt_names (st : St) (h : cleanSt st = true) : namesOk st.emittedSet = true := by
  simp only [cleanSt, Bool.and_eq_true] at h
  exact h.2

mutual
theorem Visit_total : ∀ (cfg : Cfg) (id : Option String) (tr : Option TransformData)
    (body : SchemaF) (st : St), idOk id = true → wfF body = true → cleanSt st = true →
    ∃ t st2 w, Visit cfg (.mk id tr body) st = .ok (t, st2, w) ∧ ¬(t = "")
      ∧ cleanSt st2 = true
  | cfg, none, tr, body, st, hid, hwf, hc => by
    rcases VisitBody_total cfg none tr body st rfl hwf hc with ⟨t, st2, w, heq, hne, hc2⟩
    exact ⟨t, st2, w, by simp only [Visit, heq], hne, hc2⟩
  | cfg, some n, tr, body, st, hid, hwf, hc => by
    have hn : ¬(n = "") := by
      intro he
      rw [he] at hid
      simp [idOk] at hid
    have hcU : cleanSt { st with
        referenceMap := mapSet st.referenceMap n (.mk (some n) tr body) } = true := by
      simp only [cleanSt, Bool.and_eq_true]
      exact ⟨keysOk_mapSet _ _ _ (cleanSt_keys st hc) hn, cleanSt_names st hc⟩
    by_cases hm : setMem n st.emittedSet = true
    · refine ⟨n, _, [], ?_, hn, hcU⟩
      simp [Visit, hm]
    · rcases VisitBody_total cfg (some n) tr body _ hid hwf hcU with ⟨t, st2, w, heq, hne, hc2⟩
      refine ⟨t, st2, w, ?_, hne, hc2⟩
      simp only [Bool.not_eq_true] at hm
      simp [Visit, hm, heq]
termination_by cfg id tr body st _ _ _ => 10 * countTS (.mk id tr body) + msizeS (.mk id tr body)
decreasing_by
  all_goals try simp only [countTS, countTF, countTL, countTP, countTR,
    msizeS, msizeF, msizeL, msizeP, msizeR]
  all_goals omega

theorem VisitBody_total : ∀ (cfg : Cfg) (id : Option String) (tr : Option TransformData)
    (body : SchemaF) (st : St), idOk id = true → wfF body = true → cleanSt st = true →
    ∃ t st2 w, VisitBody cfg id tr body st = .ok (t, st2, w) ∧ ¬(t = "")
      ∧ cleanSt st2 = true
  | cfg, id, some td, body, st, hid, hwf, hc => by
    cases hp : td.probe with
    | error e =>
      rcases Visit_total cfg id none body st hid hwf hc with ⟨toStr, st2, w2, heq2, hne2, hc2⟩
      simp only [VisitBody, hp, heq2]
      exact ⟨_, _, _, rfl, transformTemplate_ne_empty _ _ _, hc2⟩
    | ok v =>
      have hts := Visit_typeToSchema cfg (jsTypeof v) st
      rcases Visit_total cfg id none body st hid hwf hc with ⟨toStr, st2, w2, heq2, hne2, hc2⟩
      simp only [VisitBody, hp, hts, heq2]
      exact ⟨_, _, _, rfl, transformTemplate_ne_empty _ _ _, hc2⟩
  | cfg, id, none, .fAny, st, _, _, hc => by
    simp only [VisitBody]
    exact ⟨_, _, _, rfl, by decide, hc⟩
  | cfg, id, none, .fBigInt, st, _, _, hc => by
    simp only [VisitBody]
    exact ⟨_, _, _, rfl, by decide, hc⟩
  | cfg, id, none, .fBoolean, st, _, _, hc => by
    simp only [VisitBody]
    exact ⟨_, _, _, rfl, by decide, hc⟩
  | cfg, id, none, .fDate, st, _, _, hc => by
    simp only [VisitBody]
    exact ⟨_, _, _, rfl, by decide, hc⟩
  | cfg, id, none, .fConstructor, st, _, _, hc => by
    simp only [VisitBody]
    exact ⟨_, _, _, rfl, by decide, hc⟩
  | cfg, id, none, .fFunc, st, _, _, hc => by
    simp only [VisitBody]
    exact ⟨_, _, _, rfl, by decide, hc⟩
  | cfg, id, none, .fNever, st, _, _, hc => by
    simp only [VisitBody]
    exact ⟨_, _, _, rfl, by decide, hc⟩
  | cfg, id, none, .fNull, st, _, _, hc => by
    simp only [VisitBody]
    exact ⟨_, _, _, rfl, by decide, hc⟩
  | cfg, id, none, .fPromise, st, _, _, hc => by
    simp only [VisitBody]
    exact ⟨_, _, _, rfl, by decide, hc⟩
  | cfg, id, none, .fThis, st, _, _, hc => by
    simp only [VisitBody]
    exact ⟨_, _, _, rfl, by decide, hc⟩
  | cfg, id, none, .fUint8Array, st, _, _, hc => by
    simp only [VisitBody]
    exact ⟨_, _, _, rfl, by decide, hc⟩
  | cfg, id, none, .fUndefined, st, _, _, hc => by
    simp only [VisitBody]
    exact ⟨_, _, _, rfl, by decide, hc⟩
  | cfg, id, none, .fUnknown, st, _, _, hc => by
    simp only [VisitBody]
    exact ⟨_, _, _, rfl, by decide, hc⟩
  | cfg, id, none, .fVoid, st, _, _, hc => by
    simp only [VisitBody]
    exact ⟨_, _, _, rfl, by decide, hc⟩
  | cfg, id, none, .fOther, st, _, _, hc => by
    simp only [VisitBody]
    exact ⟨_, _, _, rfl, by decide, hc⟩
  | cfg, id, none, .fArray (.mk iid itr ibody) mi ma, st, hid, hwf, hc => by
    simp only [wfF, wfS, Bool.and_eq_true] at hwf
    rcases Visit_total cfg iid itr ibody st hwf.1 hwf.2 hc with ⟨t, st1, w1, heq, hne, hc1⟩
    rcases mi with _ | mi <;> rcases ma with _ | ma <;>
      (simp only [VisitBody, heq]
       exact ⟨_, _, _, rfl, TypeCall_ne_empty _ _ _ (by decide), hc1⟩)
  | cfg, id, none, .fInteger a b c d, st, _, _, hc => by
    rcases a with _ | a <;> rcases b with _ | b <;> rcases c with _ | c <;> rcases d with _ | d <;>
      (simp only [VisitBody]
       exact ⟨_, _, _, rfl, TypeCall_ne_empty _ _ _ (by decide), hc⟩)
  | cfg, id, none, .fNumber a b c d, st, _, _, hc => by
    rcases a with _ | a <;> rcases b with _ | b <;> rcases c with _ | c <;> rcases d with _ | d <;>
      (simp only [VisitBody]
       exact ⟨_, _, _, rfl, TypeCall_ne_empty _ _ _ (by decide), hc⟩)
  | cfg, id, none, .fIntersect l, st, hid, hwf, hc => by
    simp only [wfF] at hwf
    rcases visitList_total cfg l st hwf hc with ⟨ts, st1, w1, heq, hc1⟩
    simp only [VisitBody, heq]
    exact ⟨_, _, _, rfl, TypeCall_ne_empty _ _ _ (by decide), hc1⟩
  | cfg, id, none, .fLiteral c, st, _, _, hc => by
    cases c with
    | str s =>
      simp only [VisitBody]
      exact ⟨_, _, _, rfl, TypeCall_ne_empty _ _ _ (by decide), hc⟩
    | num n =>
      simp only [VisitBody]
      exact ⟨_, _, _, rfl, TypeCall_ne_empty _ _ _ (by decide), hc⟩
    | boolean b =>
      simp only [VisitBody]
      exact ⟨_, _, _, rfl, TypeCall_ne_empty _ _ _ (by decide), hc⟩
  | cfg, id, none, .fString f p mn mx, st, _, _, hc => by
    simp only [VisitBody]
    exact ⟨_, _, _, rfl, processStringSchema_ne_empty _ _ _ _, hc⟩
  | cfg, id, none, .fObject props, st, hid, hwf, hc => by
    simp only [wfF] at hwf
    rcases visitProps_total cfg props st hwf hc with ⟨es, st1, w1, heq, hc1⟩
    simp only [VisitBody, heq]
    exact ⟨_, _, _, rfl, TypeCall_ne_empty _ _ _ (by decide), hc1⟩
  | cfg, id, none, .fRecord [], st, hid, hwf, hc => by
    simp [wfF] at hwf
  | cfg, id, none, .fRecord ((key, .mk vid vtr vbody) :: rest), st, hid, hwf, hc => by
    simp only [wfF, wfS, Bool.and_eq_true] at hwf
    rcases Visit_total cfg vid vtr vbody st hwf.1 hwf.2 hc with ⟨t, st1, w1, heq, hne, hc1⟩
    simp only [VisitBody, heq]
    split
    · exact ⟨_, _, _, rfl, TypeCall_ne_empty _ _ _ (by decide), hc1⟩
    · exact ⟨_, _, _, rfl, TypeCall_ne_empty _ _ _ (by decide), hc1⟩
  | cfg, id, none, .fRef ref, st, _, _, hc => by
    simp only [VisitBody]
    split
    · next h => exact ⟨_, _, _, rfl, mapHas_keysOk _ _ (cleanSt_keys st hc) h, hc⟩
    · exact ⟨_, _, _, rfl, by decide, hc⟩
  | cfg, id, none, .fTemplateLiteral p, st, _, _, hc => by
    simp only [VisitBody]
    exact ⟨_, _, _, rfl, TypeCall_ne_empty _ _ _ (by decide), hc⟩
  | cfg, id, none, .fTuple none, st, _, _, hc => by
    simp only [VisitBody]
    exact ⟨_, _, _, rfl, by decide, hc⟩
  | cfg, id, none, .fTuple (some l), st, hid, hwf, hc => by
    simp only [wfF] at hwf
    rcases visitList_total cfg l st hwf hc with ⟨ts, st1, w1, heq, hc1⟩
    simp only [VisitBody, heq]
    exact ⟨_, _, _, rfl, TypeCall_ne_empty _ _ _ (by decide), hc1⟩
  | cfg, id, none, .fUnion l, st, hid, hwf, hc => by
    simp only [wfF] at hwf
    rcases visitList_total cfg l st hwf hc with ⟨ts, st1, w1, heq, hc1⟩
    simp only [VisitBody, heq]
    exact ⟨_, _, _, rfl, TypeCall_ne_empty _ _ _ (by decide), hc1⟩
termination_by cfg id tr body st _ _ _ =>
  10 * ((match tr with | some _ => 1 | none => 0) + countTF body)
    + (match tr with | some _ => 1 | none => 0) + msizeF body
decreasing_by
  all_goals try simp only [countTS, countTF, countTL, countTP, countTR,
    msizeS, msizeF, msizeL, msizeP, msizeR]
  all_goals omega

theorem visitList_total : ∀ (cfg : Cfg) (l : List Schema) (st : St),
    wfL l = true → cleanSt st = true →
    ∃ ts st2 w, visitList cfg l st = .ok (ts, st2, w) ∧ cleanSt st2 = true
  | cfg, [], st, _, hc => ⟨[], st, [], by simp [visitList], hc⟩
  | cfg, (.mk sid str0 sbody) :: r, st, hw, hc => by
    simp only [wfL, wfS, Bool.and_eq_true] at hw
    rcases Visit_total cfg sid str0 sbody st hw.1.1 hw.1.2 hc with ⟨t, st1, w1, heq, hne, hc1⟩
    rcases visitList_total cfg r st1 hw.2 hc1 with ⟨ts, st2, w2, heq2, hc2⟩
    simp only [visitList, heq, heq2]
    exact ⟨_, _, _, rfl, hc2⟩
termination_by cfg l st _ _ => 10 * countTL l + msizeL l
decreasing_by
  all_goals try simp only [countTS, countTF, countTL, countTP, countTR,
    msizeS, msizeF, msizeL, msizeP, msizeR]
  all_goals omega

theorem visitProps_total : ∀ (cfg : Cfg) (l : List (String × Bool × Schema)) (st : St),
    wfP l = true → cleanSt st = true →
    ∃ es st2 w, visitProps cfg l st = .ok (es, st2, w) ∧ cleanSt st2 = true
  | cfg, [], st, _, hc => ⟨[], st, [], by simp [visitProps], hc⟩
  | cfg, (key, optional, .mk vid vtr vbody) :: r, st, hw, hc => by
    simp only [wfP, wfS, Bool.and_eq_true] at hw
    rcases Visit_total cfg vid vtr vbody st hw.1.1 hw.1.2 hc with ⟨t, st1, w1, heq, hne, hc1⟩
    rcases visitProps_total cfg r st1 hw.2 hc1 with ⟨es, st2, w2, heq2, hc2⟩
    simp only [visitProps, heq, heq2]
    exact ⟨_, _, _, rfl, hc2⟩
termination_by cfg l st _ _ => 10 * countTP l + msizeP l
decreasing_by
  all_goals try simp only [countTS, countTF, countTL, countTP, countTR,
    msizeS, msizeF, msizeL, msizeP, msizeR]
  all_goals omega
end

theorem splitComma_ne_nil (l : List Char) : ¬(splitComma l = []) := by
  cases l with
  | nil => simp [splitComma]
  | cons c r =>
    simp only [splitComma]
    split
    · simp
    · split
      · simp
      · simp

theorem splitComma_noComma (l : List Char) (h : ∀ c ∈ l, ¬(c = ',')) :
    splitComma l = [l] := by
  induction l with
  | nil => rfl
  | cons c r ih =>
    simp only [splitComma]
    rw [if_neg (h c (by simp))]
    rw [ih (fun x hx => h x (by simp [hx]))]

theorem splitComma_append (a rest : List Char) (h : ∀ c ∈ a, ¬(c = ',')) :
    splitComma (a ++ ',' :: rest) = a :: splitComma rest := by
  induction a with
  | nil => simp [splitComma]
  | cons c r ih =>
    simp only [List.cons_append, splitComma]
    rw [if_neg (h c (by simp))]
    simp only [List.append_eq]
    rw [ih (fun x hx => h x (by simp [hx]))]

theorem trimChars_space (l : List Char) : trimChars (' ' :: l) = trimChars l := by
  simp [trimChars, List.dropWhile, isWs]

theorem takeLine_all (l : List Char) (h : ∀ c ∈ l, ¬(c = '\n')) : takeLine l = l := by
  simp only [takeLine]
  rw [List.takeWhile_eq_self_iff.mpr]
  intro c hc
  simp [h c hc]

theorem capLastParen_append (l : List Char) : capLastParen (l ++ [')']) = some l := by
  simp [capLastParen, List.dropWhile]

theorem pipeSearch_pipe (inner : String) (hnl : ∀ c ∈ inner.data, ¬(c = '\n')) :
    pipeSearch ("v.pipe(" ++ inner ++ ")").data = some inner.data := by
  have hd : ("v.pipe(" ++ inner ++ ")").data
      = 'v' :: '.' :: 'p' :: 'i' :: 'p' :: 'e' :: '(' :: (inner.data ++ [')']) := by
    rw [str_data_append, str_data_append]
    rfl
  have hline : takeLine (inner.data ++ [')']) = inner.data ++ [')'] := by
    apply takeLine_all
    intro c hc
    rcases List.mem_append.mp hc with h1 | h1
    · exact hnl c h1
    · simp at h1
      simp [h1]
  rw [hd]
  simp only [pipeSearch, tryPipeAt]
  have hdrop : List.dropWhile isWs ('(' :: (inner.data ++ [')']))
      = '(' :: (inner.data ++ [')']) := by
    simp [List.dropWhile, isWs]
  simp [hdrop, hline, capLastParen_append]

theorem jsJoin_no_nl (parts : List String)
    (h : ∀ p ∈ parts, ∀ c ∈ p.data, ¬(c = '\n')) :
    ∀ c ∈ (jsJoin ", " parts).data, ¬(c = '\n') := by
  induction parts with
  | nil => simp [jsJoin]
  | cons x r ih =>
    cases r with
    | nil =>
      simpa [jsJoin] using h x (by simp)
    | cons y rr =>
      intro c hc
      rw [show jsJoin ", " (x :: y :: rr) = x ++ ", " ++ jsJoin ", " (y :: rr) from rfl] at hc
      rw [str_data_append, str_data_append] at hc
      rcases List.mem_append.mp hc with h1 | h1
      · rcases List.mem_append.mp h1 with h2 | h2
        · exact h x (by simp) c h2
        · simp at h2
          rcases h2 with h2 | h2
          all_goals simp [h2]
      · exact ih (fun p hp => h p (by simp [hp])) c h1

theorem splitComma_join (parts : List String) (hne : ¬(parts = []))
    (hp : ∀ p ∈ parts, (∀ c ∈ p.data, ¬(c = ',')) ∧ trimChars p.data = p.data) :
    (splitComma (jsJoin ", " parts).data).map (fun g => String.mk (trimChars g)) = parts := by
  induction parts with
  | nil => exact absurd rfl hne
  | cons x r ih =>
    cases r with
    | nil =>
      rw [show jsJoin ", " [x] = x from rfl]
      rw [splitComma_noComma x.data (hp x (by simp)).1]
      simp [(hp x (by simp)).2, str_mk_data]
    | cons y rr =>
      rw [show jsJoin ", " (x :: y :: rr) = x ++ ", " ++ jsJoin ", " (y :: rr) from rfl]
      have hd : (x ++ ", " ++ jsJoin ", " (y :: rr)).data
          = x.data ++ ',' :: ' ' :: (jsJoin ", " (y :: rr)).data := by
        rw [str_data_append, str_data_append]
        simp
      rw [hd]
      rw [splitComma_append x.data _ (hp x (by simp)).1]
      have hr := ih (by simp) (fun p hpm => hp p (by simp [hpm]))
      rcases hsp : splitComma (jsJoin ", " (y :: rr)).data with _ | ⟨g, gs⟩
      · exact absurd hsp (splitComma_ne_nil _)
      · have hsp2 : splitComma (' ' :: (jsJoin ", " (y :: rr)).data) = (' ' :: g) :: gs := by
          simp only [splitComma]
          rw [if_neg (by simp)]
          rw [hsp]
        rw [hsp2]
        rw [hsp] at hr
        simp only [List.map] at hr ⊢
        rw [trimChars_space]
        simp_all [(hp x (by simp)).2, str_mk_data]

theorem pipeConstraints_pipe (parts : List String) (hne : ¬(parts = []))
    (hp : ∀ p ∈ parts, (∀ c ∈ p.data, ¬(c = ',')) ∧ (∀ c ∈ p.data, ¬(c = '\n'))
      ∧ trimChars p.data = p.data) :
    pipeConstraints ("v.pipe(" ++ jsJoin ", " parts ++ ")") = parts := by
  unfold pipeConstraints
  rw [pipeSearch_pipe _ (jsJoin_no_nl parts (fun p hpm => (hp p hpm).2.1))]
  exact splitComma_join parts hne (fun p hpm => ⟨(hp p hpm).1, (hp p hpm).2.2⟩)

theorem Visit_probe_shape (cfg : Cfg) (v : JSValue) (st : St) :
    Visit cfg (typeToSchema (jsTypeof v)) st = .ok (specSourceShape v, st, []) := by
  cases v
  all_goals
    rw [Visit_typeToSchema]
    rfl

/-- C2: visiting a node whose name is already in the Emission Memo returns the
bare name token without expanding the body, whatever the Transform payload and
kind data are — the memo check of source line 298 runs before the Transform
guard and before every kind guard; only the line 297 reference-map update
happens first. -/
theorem C2_memo_short_circuit (cfg : Cfg) (n : String) (tr : Option TransformData)
    (body : SchemaF) (st : St) (h : setMem n st.emittedSet = true) :
    Visit cfg (.mk (some n) tr body) st =
      .ok (n, { st with referenceMap := mapSet st.referenceMap n (.mk (some n) tr body) }, []) := by
  simp [Visit, h]

/-- Witness for C2: a name "A" already emitted short-circuits even on a node
that would otherwise be fatal (a Record with an empty key-pattern collection),
returning the bare name. -/
theorem C2_memo_short_circuit_witness :
    Visit cfgId (.mk (some "A") none (.fRecord [])) ⟨[], [], ["A"]⟩ =
      .ok ("A", ⟨[("A", Schema.mk (some "A") none (.fRecord []))], [], ["A"]⟩, []) :=
  C2_memo_short_circuit cfgId "A" none (.fRecord []) ⟨[], [], ["A"]⟩ (by decide)

/-- C7: on Number and Integer nodes a declared exclusive lower bound x is
emitted as the inclusive minValue refinement with value x + 1 and a declared
exclusive upper bound x as the maxValue refinement with value x - 1; in
particular exclusiveMinimum 0 and exclusiveMaximum 50 produce minValue(1) and
maxValue(49). -/
theorem C7_exclusive_bounds (cfg : Cfg) (mn mx : Option Int) (a b : Int) (st : St) :
    Visit cfg (.mk none none (.fNumber mn mx (some a) (some b))) st =
      .ok (TypeCall "v.number" none
        ((match mn with | some m => ["v.minValue(" ++ toString m ++ ")"] | none => [])
          ++ (match mx with | some m => ["v.maxValue(" ++ toString m ++ ")"] | none => [])
          ++ ["v.minValue(" ++ toString (a + 1) ++ ")"]
          ++ ["v.maxValue(" ++ toString (b - 1) ++ ")"]), st, [])
    ∧ Visit cfg (.mk none none (.fInteger mn mx (some a) (some b))) st =
      .ok (TypeCall "v.number" none
        (["v.integer()"]
          ++ (match mn with | some m => ["v.minValue(" ++ toString m ++ ")"] | none => [])
          ++ (match mx with | some m => ["v.maxValue(" ++ toString m ++ ")"] | none => [])
          ++ ["v.minValue(" ++ toString (a + 1) ++ ")"]
          ++ ["v.maxValue(" ++ toString (b - 1) ++ ")"]), st, [])
    ∧ Visit cfg (.mk none none (.fNumber none none (some 0) (some 50))) st =
      .ok ("v.pipe(v.number(), v.minValue(1), v.maxValue(49))", st, []) := by
  refine ⟨?_, ?_, ?_⟩
  all_goals rcases mn with _ | m1 <;> rcases mx with _ | m2 <;> simp [Visit, VisitBody]
  all_goals decide

/-- C9: two Generate calls with the same model, options and external
collaborators produce the same result whatever state holder each starts from
(hence also across two successive calls sharing one holder): the first thing
`Generate` does is unconditionally clear the Reference Table, the
Recursive-Name Set and the Emission Memo, so the incoming state is discarded
entirely. -/
theorem C9_generate_reset (fmt tsGen pe : String → String) (model : List Schema)
    (opts : Bool) (g1 g2 : St) :
    Generate fmt tsGen pe model opts g1 = Generate fmt tsGen pe model opts g2 := rfl

/-- Counterexample for C6: for a String node with format "email", maximum
length 5 and minimum length 1, the emitted text places the format refinement
v.email() (first occurrence at index 19) before the maximum-length refinement
(index 30), so length refinements do not appear before format refinements. -/
theorem C6_counterexample :
    Visit cfgId (.mk none none (.fString (some "email") none (some 1) (some 5))) stEmpty =
      .ok ("v.pipe(v.string(), v.email(), v.maxLength(5), v.minLength(1))", stEmpty, [])
    ∧ strOccur "v.email()" "v.pipe(v.string(), v.email(), v.maxLength(5), v.minLength(1))"
        = some 19
    ∧ strOccur "v.maxLength(5)" "v.pipe(v.string(), v.email(), v.maxLength(5), v.minLength(1))"
        = some 30
    ∧ (19 : Nat) < 30 := by
  refine ⟨?_, by decide, by decide, by decide⟩
  simp [Visit, VisitBody, processStringSchema, getLengthConstraints, getPatternConstraints,
    getFormatValidator, createStringValidatorWithFormat, jsJoin]
  decide

/-- C6 amended: for a String node carrying a recognized format, a pattern and
both length bounds, the constraint list is assembled as maximum length, then
minimum length, then pattern, and the format refinement is spliced first,
directly after the base call — so the order is format, maxLength, minLength,
pattern (not length before format). -/
theorem C6_amended (cfg : Cfg) (st : St) (f fv p : String) (m M : Int)
    (hf : getFormatValidator (some f) = some fv) (hp : ¬(p = "")) :
    Visit cfg (.mk none none (.fString (some f) (some p) (some m) (some M))) st =
      .ok (createStringValidatorWithFormat (some fv)
        (jsJoin ", " ["v.maxLength(" ++ toString M ++ ")", "v.minLength(" ++ toString m ++ ")",
          "v.regex(/" ++ escapeSlashes p ++ "/)"]), st, [])
    ∧ (∀ cs : String, ¬(cs = "") →
        createStringValidatorWithFormat (some fv) cs
          = "v.pipe(v.string(), " ++ fv ++ ", " ++ cs ++ ")") := by
  constructor
  · simp [Visit, VisitBody, processStringSchema, getLengthConstraints, getPatternConstraints,
      hf, hp, jsJoin]
  · intro cs hcs
    simp [createStringValidatorWithFormat, hcs]

/-- Witness for C6 amended at format "email", pattern "^a$", bounds 1 and 5. -/
theorem C6_amended_witness :
    Visit cfgId (.mk none none (.fString (some "email") (some "^a$") (some 1) (some 5))) stEmpty =
      .ok (createStringValidatorWithFormat (some "v.email()")
        (jsJoin ", " ["v.maxLength(" ++ toString (5 : Int) ++ ")",
          "v.minLength(" ++ toString (1 : Int) ++ ")",
          "v.regex(/" ++ escapeSlashes "^a$" ++ "/)"]), stEmpty, [])
    ∧ (∀ cs : String, ¬(cs = "") →
        createStringValidatorWithFormat (some "v.email()") cs
          = "v.pipe(v.string(), " ++ "v.email()" ++ ", " ++ cs ++ ")") :=
  C6_amended cfgId stEmpty "email" "v.email()" "^a$" 1 5 (by decide) (by decide)

/-- Counterexample for C3: the line-281 comma split and the line-279
line-confined regex make the splice unfaithful on reachable targets.
(a) A Transform wrapping a String node with pattern a\x7b2,4\x7d visits the
target to a single-line pipe whose regex stage contains a comma; the capture
is split at that comma, so the emitted constraint list is not the target's
stage list, and the rejoin corrupts the stage to v.regex(/a\x7b2, 4\x7d/).
(b) A Transform wrapping an Array-of-Object node with minItems 1 visits the
target to a multi-line pipe whose first line holds no closing parenthesis, the
regex finds no match, and the whole target pipeline is nested un-flattened as
one stage instead of being spliced. -/
theorem C3_counterexample :
    Visit cfgId (.mk none (some tdStrNum) (.fString none (some "a\x7b2,4\x7d") none none))
        stEmpty =
      .ok (transformTemplate "v.string()" tdStrNum.encodeText
        ["v.string()", "v.regex(/a\x7b2", "4\x7d/)"], stEmpty, [])
    ∧ ¬(pipeConstraints "v.pipe(v.string(), v.regex(/a\x7b2,4\x7d/))"
        = ["v.string()", "v.regex(/a\x7b2,4\x7d/)"])
    ∧ Visit cfgId (.mk none (some tdStrNum)
        (.fArray (.mk none none (.fObject [("a", false, .mk none none .fBoolean)]))
          (some 1) none)) stEmpty =
      .ok (transformTemplate "v.string()" tdStrNum.encodeText
        ["v.pipe(v.array(v.object(\x7b\na: v.boolean()\n\x7d)), v.minLength(1))"],
        stEmpty, [])
    ∧ pipeConstraints "v.pipe(v.array(v.object(\x7b\na: v.boolean()\n\x7d)), v.minLength(1))"
        = ["v.pipe(v.array(v.object(\x7b\na: v.boolean()\n\x7d)), v.minLength(1))"]
    ∧ ¬(pipeConstraints "v.pipe(v.array(v.object(\x7b\na: v.boolean()\n\x7d)), v.minLength(1))"
        = ["v.array(v.object(\x7b\na: v.boolean()\n\x7d))", "v.minLength(1)"]) := by
  refine ⟨?_, by decide, ?_, by decide, by decide⟩
  all_goals
    simp [Visit, VisitBody, tdStrNum, Visit_typeToSchema, visitProps, processStringSchema,
      getLengthConstraints, getPatternConstraints, getFormatValidator, escapeSlashes,
      createStringValidatorWithFormat, pipeConstraints, pipeSearch, tryPipeAt, splitComma,
      trimChars, isWs, capLastParen, takeLine, TypeCall, jsJoin, cfgId, specSourceShape,
      jsTypeof]
    try decide

/-- C3 amended: a Transform node whose probe succeeds emits the three-part
pipeline — the inferred source-shape expression, a v.transform stage embedding
the encode function's own text verbatim, then a constraint list derived from
the visited target text by the line-confined first-match v.pipe regex of
source line 279: when the target text is a single-line v.pipe composition of
stages free of commas, newlines and surrounding whitespace, that constraint
list is exactly the composition's stage list spliced in (flattened one level);
when the regex finds no match (a bare base call, or a multi-line pipeline),
the trimmed whole target text is the single stage. -/
theorem C3_transform_pipeline (cfg : Cfg) (id : Option String) (td : TransformData)
    (body : SchemaF) (st : St) (v : JSValue) (toStr : String) (st2 : St) (w2 : List Warn)
    (hm : memoMiss id st = true)
    (hprobe : td.probe = .ok v)
    (htar : Visit cfg (.mk id none body) (refUpdate st id (.mk id (some td) body))
      = .ok (toStr, st2, w2)) :
    (Visit cfg (.mk id (some td) body) st =
      .ok (transformTemplate (specSourceShape v) td.encodeText (pipeConstraints toStr), st2, w2))
    ∧ (∀ parts : List String, ¬(parts = []) →
        (∀ p ∈ parts, (∀ c ∈ p.data, ¬(c = ',')) ∧ (∀ c ∈ p.data, ¬(c = '\n'))
          ∧ trimChars p.data = p.data) →
        toStr = "v.pipe(" ++ jsJoin ", " parts ++ ")" →
        pipeConstraints toStr = parts)
    ∧ (pipeSearch toStr.data = none →
        pipeConstraints toStr = [String.mk (trimChars toStr.data)]) := by
  refine ⟨?_, ?_, ?_⟩
  · rw [Visit_step cfg id (some td) body st hm]
    simp only [VisitBody, hprobe, Visit_probe_shape, htar]
    simp
  · intro parts hne hp heq
    rw [heq]
    exact pipeConstraints_pipe parts hne hp
  · intro hnone
    simp [pipeConstraints, hnone]

/-- Witness for C3: the repository test "Transform String to Number" — a
Transform around a named Number node with bounds 1 and 50 whose decode
function returns a string; the target's v.pipe stages are spliced into the
outer pipeline. -/
theorem C3_transform_pipeline_witness :
    (Visit cfgId (.mk (some "Test") (some tdStrNum) (.fNumber (some 1) (some 50) none none))
        stEmpty =
      .ok (transformTemplate (specSourceShape .str) tdStrNum.encodeText
        (pipeConstraints "v.pipe(v.number(), v.minValue(1), v.maxValue(50))"),
        ⟨[("Test", Schema.mk (some "Test") none (.fNumber (some 1) (some 50) none none))],
          [], []⟩, []))
    ∧ pipeConstraints "v.pipe(v.number(), v.minValue(1), v.maxValue(50))"
        = ["v.number()", "v.minValue(1)", "v.maxValue(50)"] := by
  have h := C3_transform_pipeline cfgId (some "Test") tdStrNum
    (.fNumber (some 1) (some 50) none none) stEmpty .str
    "v.pipe(v.number(), v.minValue(1), v.maxValue(50))"
    ⟨[("Test", Schema.mk (some "Test") none (.fNumber (some 1) (some 50) none none))], [], []⟩
    [] (by decide) rfl
    (by
      simp [Visit, VisitBody, TypeCall, jsJoin, refUpdate, mapSet, setMem, tdStrNum, cfgId,
        stEmpty]
      decide)
  exact ⟨h.1, h.2.1 ["v.number()", "v.minValue(1)", "v.maxValue(50)"]
    (by decide) (by decide) (by decide)⟩

/-- Counterexample for C4: the probe inspects `typeof`, and JavaScript's
`typeof` of an array is "object", so a decode function returning an array
yields the empty-object source shape, not an array source shape; likewise a
returned number yields the number source shape rather than falling into the
"anything else is any" bucket. -/
theorem C4_counterexample :
    Visit cfgId (.mk none (some tdArr) .fBoolean) stEmpty =
      .ok (transformTemplate "v.object(\x7b\n\n\x7d)" tdArr.encodeText ["v.boolean()"],
        stEmpty, [])
    ∧ ¬(transformTemplate "v.object(\x7b\n\n\x7d)" tdArr.encodeText ["v.boolean()"]
        = transformTemplate "v.array(v.any())" tdArr.encodeText ["v.boolean()"])
    ∧ Visit cfgId (.mk none (some tdNum) .fBoolean) stEmpty =
      .ok (transformTemplate "v.number()" tdNum.encodeText ["v.boolean()"], stEmpty, [])
    ∧ ¬(transformTemplate "v.number()" tdNum.encodeText ["v.boolean()"]
        = transformTemplate "v.any()" tdNum.encodeText ["v.boolean()"]) := by
  refine ⟨?_, by decide, ?_, by decide⟩
  all_goals
    simp [Visit, VisitBody, tdArr, tdNum, Visit_typeToSchema, specSourceShape, jsTypeof,
      pipeConstraints, pipeSearch, tryPipeAt, splitComma, trimChars, isWs, TypeCall]
    try decide

/-- C4 amended: for a Transform node whose decode probe returns a value, the
inferred source shape is a function of the `typeof` tag of that value alone:
"string", "number" and "boolean" map to the corresponding base schema,
"object" (the tag of plain objects, arrays and null) maps to the empty-object
schema, and every other tag maps to the any schema. -/
theorem C4_amended (cfg : Cfg) (id : Option String) (td : TransformData)
    (body : SchemaF) (st : St) (v : JSValue) (toStr : String) (st2 : St) (w2 : List Warn)
    (hm : memoMiss id st = true)
    (hprobe : td.probe = .ok v)
    (htar : Visit cfg (.mk id none body) (refUpdate st id (.mk id (some td) body))
      = .ok (toStr, st2, w2)) :
    (Visit cfg (.mk id (some td) body) st =
      .ok (transformTemplate (specSourceShape v) td.encodeText (pipeConstraints toStr), st2, w2))
    ∧ (jsTypeof v = "string" → specSourceShape v = "v.string()")
    ∧ (jsTypeof v = "number" → specSourceShape v = "v.number()")
    ∧ (jsTypeof v = "boolean" → specSourceShape v = "v.boolean()")
    ∧ (jsTypeof v = "object" → specSourceShape v = "v.object(\x7b\n\n\x7d)")
    ∧ (¬(jsTypeof v = "string") → ¬(jsTypeof v = "number") → ¬(jsTypeof v = "boolean") →
        ¬(jsTypeof v = "object") → specSourceShape v = "v.any()") := by
  refine ⟨?_, ?_, ?_, ?_, ?_, ?_⟩
  · rw [Visit_step cfg id (some td) body st hm]
    simp only [VisitBody, hprobe, Visit_probe_shape, htar]
    simp
  all_goals cases v <;> simp [jsTypeof, specSourceShape]

/-- Witness for C4 amended: a decode probe returning an array, around a
Boolean target. -/
theorem C4_amended_witness :
    (Visit cfgId (.mk none (some tdArr) .fBoolean) stEmpty =
      .ok (transformTemplate (specSourceShape .array) tdArr.encodeText
        (pipeConstraints "v.boolean()"), stEmpty, []))
    ∧ (jsTypeof .array = "string" → specSourceShape .array = "v.string()")
    ∧ (jsTypeof .array = "number" → specSourceShape .array = "v.number()")
    ∧ (jsTypeof .array = "boolean" → specSourceShape .array = "v.boolean()")
    ∧ (jsTypeof .array = "object" → specSourceShape .array = "v.object(\x7b\n\n\x7d)")
    ∧ (¬(jsTypeof .array = "string") → ¬(jsTypeof .array = "number") →
        ¬(jsTypeof .array = "boolean") → ¬(jsTypeof .array = "object") →
        specSourceShape .array = "v.any()") :=
  C4_amended cfgId none tdArr .fBoolean stEmpty .array "v.boolean()" stEmpty []
    (by decide) rfl
    (by
      simp [Visit, VisitBody, TypeCall, refUpdate, cfgId, stEmpty])

/-- C5: when the decode probe throws, the failure is caught and non-fatal: a
diagnostic carrying the decode function's text and the underlying error is
appended to the warning log, the inferred source shape falls back to the
annotated accept-anything sentinel, and the emitter still returns the full
pipeline text. -/
theorem C5_probe_failure (cfg : Cfg) (id : Option String) (td : TransformData)
    (body : SchemaF) (st : St) (e : String) (toStr : String) (st2 : St) (w2 : List Warn)
    (hm : memoMiss id st = true)
    (hprobe : td.probe = .error e)
    (htar : Visit cfg (.mk id none body) (refUpdate st id (.mk id (some td) body))
      = .ok (toStr, st2, w2)) :
    Visit cfg (.mk id (some td) body) st =
      .ok (transformTemplate "v.any(/* failed to convert from Decode function */)"
        td.encodeText (pipeConstraints toStr), st2, (td.decodeText, e) :: w2) := by
  rw [Visit_step cfg id (some td) body st hm]
  simp only [VisitBody, hprobe, htar]
  simp

/-- Witness for C5: a decode function that throws "boom" on the probe, around
a Boolean target: the visit still returns text and logs one diagnostic. -/
theorem C5_probe_failure_witness :
    Visit cfgId (.mk none (some tdBoom) .fBoolean) stEmpty =
      .ok (transformTemplate "v.any(/* failed to convert from Decode function */)"
        tdBoom.encodeText (pipeConstraints "v.boolean()"), stEmpty,
        [(tdBoom.decodeText, "boom")]) :=
  C5_probe_failure cfgId none tdBoom .fBoolean stEmpty "boom" "v.boolean()" stEmpty []
    (by decide) rfl
    (by
      simp [Visit, VisitBody, TypeCall, refUpdate, cfgId, stEmpty])

/-- Counterexample for C8: a Tuple node whose items collection is absent (the
empty tuple) emits the bare bracket text, not a call with a bracketed list
parameter. -/
theorem C8_counterexample :
    Visit cfgId (.mk none none (.fTuple none)) stEmpty = .ok ("[]", stEmpty, [])
    ∧ ¬("[]" = TypeCall "v.tuple" (some "[]") []) := by
  constructor
  · simp [Visit, VisitBody]
  · decide

/-- C8 amended: Union, Intersect and Tuple nodes emit a call whose parameter
is the bracketed, comma-joined list of the recursively visited children in
input order — except that a Tuple whose items collection is absent (source
line 229) returns the bare text of an empty bracket pair instead of a call. -/
theorem C8_bracketed_children (cfg : Cfg) (l : List Schema) (st : St)
    (ts : List String) (st1 : St) (w1 : List Warn)
    (h : visitList cfg l st = .ok (ts, st1, w1)) :
    Visit cfg (.mk none none (.fUnion l)) st =
      .ok (TypeCall "v.union" (some ("[" ++ jsJoin ", " ts ++ "]")) [], st1, w1)
    ∧ Visit cfg (.mk none none (.fIntersect l)) st =
      .ok (TypeCall "v.intersect" (some ("[" ++ jsJoin ", " ts ++ "]")) [], st1, w1)
    ∧ Visit cfg (.mk none none (.fTuple (some l))) st =
      .ok (TypeCall "v.tuple" (some ("[" ++ jsJoin ", " ts ++ "]")) [], st1, w1)
    ∧ Visit cfg (.mk none none (.fTuple none)) st = .ok ("[]", st, [])
    ∧ (∀ s0 r, visitList cfg (s0 :: r) st =
        match Visit cfg s0 st with
        | .ok (t0, stA, wA) =>
          match visitList cfg r stA with
          | .ok (tr0, stB, wB) => .ok (t0 :: tr0, stB, wA ++ wB)
          | .error e => .error e
        | .error e => .error e) := by
  refine ⟨?_, ?_, ?_, ?_, ?_⟩
  · simp [Visit, VisitBody, h]
  · simp [Visit, VisitBody, h]
  · simp [Visit, VisitBody, h]
  · simp [Visit, VisitBody]
  · intro s0 r
    rw [visitList]

/-- Witness for C8 amended: a two-child list (Boolean then String) whose
visited texts appear bracketed in input order. -/
theorem C8_bracketed_children_witness :
    Visit cfgId (.mk none none
        (.fUnion [.mk none none .fBoolean, .mk none none (.fString none none none none)]))
        stEmpty =
      .ok (TypeCall "v.union" (some ("[" ++ jsJoin ", " ["v.boolean()", "v.string()"] ++ "]")) [],
        stEmpty, [])
    ∧ Visit cfgId (.mk none none
        (.fIntersect [.mk none none .fBoolean, .mk none none (.fString none none none none)]))
        stEmpty =
      .ok (TypeCall "v.intersect"
        (some ("[" ++ jsJoin ", " ["v.boolean()", "v.string()"] ++ "]")) [], stEmpty, [])
    ∧ Visit cfgId (.mk none none
        (.fTuple (some [.mk none none .fBoolean, .mk none none (.fString none none none none)])))
        stEmpty =
      .ok (TypeCall "v.tuple" (some ("[" ++ jsJoin ", " ["v.boolean()", "v.string()"] ++ "]")) [],
        stEmpty, [])
    ∧ Visit cfgId (.mk none none (.fTuple none)) stEmpty = .ok ("[]", stEmpty, [])
    ∧ (∀ s0 r, visitList cfgId (s0 :: r) stEmpty =
        match Visit cfgId s0 stEmpty with
        | .ok (t0, stA, wA) =>
          match visitList cfgId r stA with
          | .ok (tr0, stB, wB) => .ok (t0 :: tr0, stB, wA ++ wB)
          | .error e => .error e
        | .error e => .error e) :=
  C8_bracketed_children cfgId
    [.mk none none .fBoolean, .mk none none (.fString none none none none)]
    stEmpty ["v.boolean()", "v.string()"] stEmpty []
    (by
      simp [visitList, Visit, VisitBody, TypeCall, processStringSchema, getLengthConstraints,
        getPatternConstraints, getFormatValidator, createStringValidatorWithFormat, jsJoin])

/-- C10: only the first pattern-properties entry of a Record node determines
the emitted output: the loop of source lines 211-218 returns in its first
iteration, so any further entries are ignored and contribute nothing; the
first entry's key selects the numeric-keyed form on the exact pattern of
source line 213 and otherwise the general key-validated form whose key
validator re-runs the String rule over that pattern. -/
theorem C10_record_first_entry (cfg : Cfg) (k : String) (v0 : Schema)
    (rest : List (String × Schema)) (st : St) :
    Visit cfg (.mk none none (.fRecord ((k, v0) :: rest))) st =
      Visit cfg (.mk none none (.fRecord [(k, v0)])) st
    ∧ (∀ t st1 w1, Visit cfg v0 st = .ok (t, st1, w1) →
        Visit cfg (.mk none none (.fRecord ((k, v0) :: rest))) st =
          .ok ((if k = "^(0|[1-9][0-9]*)$" then TypeCall "v.record" (some ("v.number(), " ++ t)) []
            else TypeCall "v.record"
              (some (processStringSchema none (some k) none none ++ ", " ++ t)) []),
            st1, w1)) := by
  constructor
  · cases hv : Visit cfg v0 st with
    | ok r =>
      rcases r with ⟨t, st1, w1⟩
      simp [Visit, VisitBody, hv]
    | error e =>
      simp [Visit, VisitBody, hv]
  · intro t st1 w1 hv
    simp only [Visit, VisitBody, hv]
    split
    all_goals rfl

/-- Witness for C10: a two-entry Record; the second entry (a String node under
key "b") leaves no trace in the output, which is the general key-validated
form for the first entry's key "a". -/
theorem C10_record_first_entry_witness :
    Visit cfgId (.mk none none
        (.fRecord [("a", .mk none none .fBoolean), ("b", .mk none none (.fString none none none none))]))
        stEmpty =
      Visit cfgId (.mk none none (.fRecord [("a", .mk none none .fBoolean)])) stEmpty
    ∧ Visit cfgId (.mk none none
        (.fRecord [("a", .mk none none .fBoolean), ("b", .mk none none (.fString none none none none))]))
        stEmpty =
      .ok ((if "a" = "^(0|[1-9][0-9]*)$" then
          TypeCall "v.record" (some ("v.number(), " ++ "v.boolean()")) []
        else TypeCall "v.record"
          (some (processStringSchema none (some "a") none none ++ ", " ++ "v.boolean()")) []),
        stEmpty, []) := by
  have h := C10_record_first_entry cfgId "a" (.mk none none .fBoolean)
    [("b", .mk none none (.fString none none none none))] stEmpty
  exact ⟨h.1, h.2 "v.boolean()" stEmpty [] (by simp [Visit, VisitBody, TypeCall])⟩

/-- Counterexample for C1: (a) a Record node with an empty key-pattern
collection does not raise when its name is already in the Emission Memo — the
line 298 memo check returns the bare name before the Record rule can throw;
(b) Visit can return the empty string: a Ref whose target name is the empty
string resolves to that name when the reference map holds it (reachable by
generating a model containing a node with an empty-string $id), so the
"always non-empty text" part fails without a nonempty-name proviso. -/
theorem C1_counterexample :
    Visit cfgId (.mk (some "A") none (.fRecord [])) ⟨[], [], ["A"]⟩ =
      .ok ("A", ⟨[("A", Schema.mk (some "A") none (.fRecord []))], [], ["A"]⟩, [])
    ∧ Visit cfgId (.mk none none (.fRef "")) ⟨[("", Schema.mk none none .fAny)], [], []⟩ =
      .ok ("", ⟨[("", Schema.mk none none .fAny)], [], []⟩, []) := by
  constructor
  · simp [Visit, VisitBody, setMem, mapSet]
  · simp [Visit, VisitBody, mapHas]

/-- C1 amended: over nodes all of whose names are nonempty and whose reachable
Record nodes have nonempty key-pattern collections, and from a state whose
reference-map keys and emitted names are nonempty, Visit always returns
non-empty text and never raises; and a Record node with an empty key-pattern
collection raises the "Unreachable" error whenever its name (if any) is not
already in the Emission Memo. -/
theorem C1_total_visit :
    (∀ (cfg : Cfg) (s : Schema) (st : St), wfS s = true → cleanSt st = true →
      ∃ t st2 w, Visit cfg s st = .ok (t, st2, w) ∧ ¬(t = ""))
    ∧ (∀ (cfg : Cfg) (id : Option String) (st : St), memoMiss id st = true →
      Visit cfg (.mk id none (.fRecord [])) st = .error "Unreachable") := by
  constructor
  · intro cfg s st hw hc
    rcases s with ⟨id, tr, body⟩
    simp only [wfS, Bool.and_eq_true] at hw
    rcases Visit_total cfg id tr body st hw.1 hw.2 hc with ⟨t, st2, w, heq, hne, _⟩
    exact ⟨t, st2, w, heq, hne⟩
  · intro cfg id st hm
    rw [Visit_step cfg id none (.fRecord []) st hm]
    simp [VisitBody]

/-- Witness for C1 amended: a named String node from the empty state visits to
non-empty text, and an anonymous empty Record from the empty state raises. -/
theorem C1_total_visit_witness :
    (∃ t st2 w, Visit cfgId (.mk (some "T") none (.fString none none none none)) stEmpty =
      .ok (t, st2, w) ∧ ¬(t = ""))
    ∧ Visit cfgId (.mk none none (.fRecord [])) stEmpty = .error "Unreachable" :=
  ⟨C1_total_visit.1 cfgId (.mk (some "T") none (.fString none none none none)) stEmpty
      (by decide) (by decide),
   C1_total_visit.2 cfgId none stEmpty (by decide)⟩
